import Mathlib

/-!
# Verification of `lib/package_orphans.c` (xbps orphan classifier)

Shallow embedding of the orphan-package classifier from
`src/lib/package_orphans.c`.  Package dictionaries become a Lean structure,
the `SIMPLEQ` accumulator `orphan_list` becomes an explicit `List` threaded
through the scan, and fallible control flow (`return rv` with `rv != 0`)
becomes `Except Nat`.  External collaborators that are not part of this
repository (`xbps_get_pkg_name`, the reverse array iterator) are modelled
from the specification, as noted on their doc comments.
-/

set_option autoImplicit false

namespace XbpsOrphans

/-- `EINVAL` as used by `find_orphan_pkg` for malformed records. -/
def EINVAL : Nat := 22

/-- Package states (`pkg_state_t`); `find_orphan_pkg` only distinguishes
`XBPS_PKG_STATE_INSTALLED` from the rest. -/
inductive pkg_state_t where
  | XBPS_PKG_STATE_UNPACKED
  | XBPS_PKG_STATE_INSTALLED
  | XBPS_PKG_STATE_BROKEN
  | XBPS_PKG_STATE_CONFIG_FILES
  | XBPS_PKG_STATE_NOT_INSTALLED
  deriving DecidableEq, Repr

/-- The value stored under the `"requiredby"` key of a package dictionary:
either a proplib array of dependent-reference strings, or some value of a
different proplib type (which the classifier rejects with `EINVAL`). -/
inductive ReqByVal where
  | nonArray
  | array (deps : List String)
  deriving DecidableEq, Repr

/-- One package record of the regpkgdb `"packages"` array
(`prop_dictionary_t`), restricted to the keys `find_orphan_pkg` reads.

* `automaticInstall` — the `"automatic-install"` boolean;
  `prop_dictionary_get_bool` leaves the out-parameter `false` when the key
  is absent, so an absent key is the same as `false` here.
* `stateRv` / `state` — result of the external call
  `xbps_get_pkg_state_dictionary(obj, &state)`: `stateRv` is its `int`
  return value (`0` on success) and `state` the state it stores on success.
* `requiredby` — `prop_dictionary_get(obj, "requiredby")`; `none` models a
  `NULL` return (key absent). -/
structure PkgDict where
  pkgname : String
  automaticInstall : Bool
  stateRv : Nat
  state : pkg_state_t
  requiredby : Option ReqByVal
  deriving DecidableEq, Repr

/-- An entry of the static `orphan_list` (`struct orphan_pkg`): the deep
copy of the matched dictionary together with its `"pkgname"` string. -/
structure orphan_pkg where
  dict : PkgDict
  pkgname : String
  deriving DecidableEq, Repr

/-- The regpkgdb dictionary, restricted to its `"packages"` array in
registration order. -/
structure Registry where
  packages : List PkgDict
  deriving DecidableEq, Repr

/-- Modelled from the spec: `parse_bare_name(depspec) -> name |
MalformedRecord` — `xbps_get_pkg_name` is not under `src/`; the spec says
to "extract the bare package name from `d` (strip the trailing version
suffix)" and to fail on a malformed spec string.  We keep the characters
before the last `-` and fail when the string has no `-` at all. -/
def bareNameChars : List Char → Option (List Char)
  | [] => none
  | c :: rest =>
    match bareNameChars rest with
    | some r => some (c :: r)
    | none => if c = '-' then some [] else none

/-- Modelled from the spec: see `bareNameChars`.  Returns the dependent
package name of a `name-version` reference string, or `none` when the
string cannot be parsed. -/
def xbps_get_pkg_name (s : String) : Option String :=
  (bareNameChars s.data).map List.asString

/-- The `while` loop of `find_orphan_pkg` (lines 112-124): for each
dependent reference, extract the bare name (`EINVAL` on failure) and bump
`ndep` when a current `orphan_list` entry carries that name (the inner
`SIMPLEQ_FOREACH` with `break` contributes at most 1 per reference). -/
def reqbyMatchCount (orphan_list : List orphan_pkg) :
    List String → Except Nat Nat
  | [] => .ok 0
  | d :: rest =>
    match xbps_get_pkg_name d with
    | none => .error EINVAL
    | some pkgname =>
      match reqbyMatchCount orphan_list rest with
      | .error e => .error e
      | .ok n =>
        .ok ((if orphan_list.any (fun o => o.pkgname == pkgname)
              then 1 else 0) + n)

/-- `find_orphan_pkg` (lines 73-140): the per-record callback.  Takes the
current `orphan_list` and returns the updated list, or the nonzero `rv`
the C callback returns on failure. -/
def find_orphan_pkg (obj : PkgDict) (orphan_list : List orphan_pkg) :
    Except Nat (List orphan_pkg) :=
  if !obj.automaticInstall then .ok orphan_list
  else if obj.stateRv ≠ 0 then .error obj.stateRv
  else if obj.state ≠ .XBPS_PKG_STATE_INSTALLED then .ok orphan_list
  else
    match obj.requiredby with
    | none => .ok orphan_list
    | some .nonArray => .error EINVAL
    | some (.array deps) =>
      if deps.length = 0 then
        .ok (orphan_list ++ [⟨obj, obj.pkgname⟩])
      else
        match reqbyMatchCount orphan_list deps with
        | .error e => .error e
        | .ok ndep =>
          if ndep ≠ deps.length then .ok orphan_list
          else .ok (orphan_list ++ [⟨obj, obj.pkgname⟩])

/-- Modelled from the spec: `xbps_callback_array_iter_reverse_in_dict` is
not under `src/`; the spec says the classifier "walks the snapshot's
package list in reverse registration order", stopping at the first nonzero
callback return.  The caller passes the already-reversed list; this folds
`find_orphan_pkg` over it, threading the accumulator. -/
def iterPkgs (orphan_list : List orphan_pkg) :
    List PkgDict → Except Nat (List orphan_pkg)
  | [] => .ok orphan_list
  | p :: rest =>
    match find_orphan_pkg p orphan_list with
    | .error e => .error e
    | .ok acc => iterPkgs acc rest

/-- Observable outcome of one `xbps_find_orphan_packages` call:
the returned array (`none` models a `NULL` return), the final contents of
the static `orphan_list`, whether `xbps_regpkgdb_dictionary_release` was
called, and the `errno` value set on a scan failure. -/
structure FOPResult where
  result : Option (List PkgDict)
  orphan_list : List orphan_pkg
  released : Bool
  err : Option Nat
  deriving DecidableEq, Repr

/-- `xbps_find_orphan_packages` (lines 155-197).  `orphan_list0` is the
contents of the static `orphan_list` when the call starts (empty at
process start) and `regpkgdb` the snapshot
(`none` models `xbps_regpkgdb_dictionary_get()` returning `NULL`).
On scan failure `cleanup()` drains `orphan_list` and releases the
snapshot; on success the drain loop moves every entry's dictionary into
the result array in insertion order, then releases the snapshot. -/
def xbps_find_orphan_packages (orphan_list0 : List orphan_pkg)
    (regpkgdb : Option Registry) : FOPResult :=
  match regpkgdb with
  | none => ⟨none, orphan_list0, false, none⟩
  | some reg =>
    match iterPkgs orphan_list0 reg.packages.reverse with
    | .error rv => ⟨none, [], true, some rv⟩
    | .ok finalList =>
      ⟨some (finalList.map (fun o => o.dict)), [], true, none⟩

/-! ## Concrete package records used as test inputs -/

/-- The record `A{automatic:true, required_by:["B-2.0"]}` of the spec's
transitive scenario. -/
def pkgA : PkgDict :=
  ⟨"A", true, 0, .XBPS_PKG_STATE_INSTALLED, some (.array ["B-2.0"])⟩

/-- The record `B{automatic:true, required_by:[]}` of the spec's
transitive scenario. -/
def pkgB : PkgDict :=
  ⟨"B", true, 0, .XBPS_PKG_STATE_INSTALLED, some (.array [])⟩

/-- The registry of the transitive scenario, registered in order `[A, B]`. -/
def regAB : Registry := ⟨[pkgA, pkgB]⟩

/-- An automatic, installed record whose dictionary has no `"requiredby"`
key at all. -/
def pkgNoReqby : PkgDict :=
  ⟨"C", true, 0, .XBPS_PKG_STATE_INSTALLED, none⟩

/-- An automatic, installed record whose `"requiredby"` value is not an
array. -/
def pkgNonArrayReqby : PkgDict :=
  ⟨"D", true, 0, .XBPS_PKG_STATE_INSTALLED, some .nonArray⟩

/-- An automatic, installed record with a dependent reference that has no
version suffix, so bare-name extraction fails on it. -/
def pkgBadDepRef : PkgDict :=
  ⟨"E", true, 0, .XBPS_PKG_STATE_INSTALLED, some (.array ["nodash"])⟩

/-- An automatic record whose state resolution fails with return value 5. -/
def pkgStateFail : PkgDict :=
  ⟨"F", true, 5, .XBPS_PKG_STATE_INSTALLED, none⟩

/-! ## Structural lemmas about the callback and the scan -/

/-- A successful callback invocation either leaves `orphan_list` unchanged
or appends exactly one entry, built from the current record; in the latter
case the record passed the `automatic-install` and state guards. -/
theorem find_orphan_pkg_ok_cases (obj : PkgDict) (acc acc2 : List orphan_pkg)
    (h : find_orphan_pkg obj acc = .ok acc2) :
    acc2 = acc ∨
      (acc2 = acc ++ [⟨obj, obj.pkgname⟩] ∧ obj.automaticInstall = true ∧
        obj.stateRv = 0 ∧ obj.state = .XBPS_PKG_STATE_INSTALLED ∧
        ∃ deps, obj.requiredby = some (.array deps)) := by
  unfold find_orphan_pkg at h
  split at h
  · exact Or.inl (Except.ok.inj h).symm
  next hauto =>
    split at h
    · exact absurd h (by simp)
    next hrv =>
      split at h
      · exact Or.inl (Except.ok.inj h).symm
      next hst =>
        split at h
        · exact Or.inl (Except.ok.inj h).symm
        · exact absurd h (by simp)
        next deps heq =>
          have hA : obj.automaticInstall = true := by
            simpa using hauto
          have hR : obj.stateRv = 0 := by omega
          have hS : obj.state = .XBPS_PKG_STATE_INSTALLED := by
            by_contra hc
            exact hst hc
          split at h
          · exact Or.inr ⟨(Except.ok.inj h).symm, hA, hR, hS, deps, heq⟩
          · split at h
            · exact absurd h (by simp)
            · split at h
              · exact Or.inl (Except.ok.inj h).symm
              · exact Or.inr ⟨(Except.ok.inj h).symm, hA, hR, hS, deps, heq⟩

/-- A successful scan extends the incoming `orphan_list` with a tail whose
dictionaries form a sublist of the visited records, each of which passed
the `automatic-install` and state guards. -/
theorem iterPkgs_ok_cases (l : List PkgDict) :
    ∀ acc fl, iterPkgs acc l = .ok fl →
      ∃ tl, fl = acc ++ tl ∧
        List.Sublist (tl.map (fun o => o.dict)) l ∧
        ∀ o ∈ tl, o.dict.automaticInstall = true ∧ o.dict.stateRv = 0 ∧
          o.dict.state = .XBPS_PKG_STATE_INSTALLED ∧
          ∃ deps, o.dict.requiredby = some (.array deps) := by
  induction l with
  | nil =>
    intro acc fl h
    refine ⟨[], ?_, by simp, by simp⟩
    have hh : Except.ok (ε := Nat) acc = .ok fl := by
      simpa [iterPkgs] using h
    simp [(Except.ok.inj hh).symm]
  | cons p rest ih =>
    intro acc fl h
    unfold iterPkgs at h
    cases hf : find_orphan_pkg p acc with
    | error e => rw [hf] at h; exact absurd h (by simp)
    | ok acc1 =>
      rw [hf] at h
      obtain ⟨tl1, hfl, hsub, hprop⟩ := ih acc1 fl h
      rcases find_orphan_pkg_ok_cases p acc acc1 hf with
        hcase | ⟨hcase, hA, hR, hS, hQ⟩
      · subst hcase
        exact ⟨tl1, hfl, hsub.cons p, hprop⟩
      · subst hcase
        refine ⟨⟨p, p.pkgname⟩ :: tl1, by simpa using hfl, ?_, ?_⟩
        · simpa using hsub.cons₂ p
        · intro o ho
          rcases List.mem_cons.mp ho with rfl | ho2
          · exact ⟨hA, hR, hS, hQ⟩
          · exact hprop o ho2

/-- The `ndep` counter never exceeds the number of dependent references,
and reaches it exactly when every reference's bare name matches some entry
of the current `orphan_list`. -/
theorem reqbyMatchCount_ok_iff (acc : List orphan_pkg) (deps : List String) :
    ∀ n, reqbyMatchCount acc deps = .ok n →
      n ≤ deps.length ∧
        (n = deps.length ↔ ∀ d ∈ deps, ∃ nm, xbps_get_pkg_name d = some nm ∧
          acc.any (fun o => o.pkgname == nm) = true) := by
  induction deps with
  | nil =>
    intro n h
    have hh : Except.ok (ε := Nat) 0 = .ok n := by
      simpa [reqbyMatchCount] using h
    simp [(Except.ok.inj hh).symm]
  | cons d rest ih =>
    intro n h
    unfold reqbyMatchCount at h
    cases hx : xbps_get_pkg_name d with
    | none => rw [hx] at h; exact absurd h (by simp)
    | some nm =>
      rw [hx] at h
      cases hr : reqbyMatchCount acc rest with
      | error e => rw [hr] at h; exact absurd h (by simp)
      | ok m =>
        rw [hr] at h
        obtain ⟨hle, hiff⟩ := ih m hr
        have hn : (if acc.any (fun o => o.pkgname == nm) then 1 else 0) + m
            = n := Except.ok.inj h
        by_cases hb : acc.any (fun o => o.pkgname == nm) = true
        · rw [if_pos hb] at hn
          constructor
          · simp only [List.length_cons]; omega
          · constructor
            · intro heq
              have hm : m = rest.length := by
                simp only [List.length_cons] at heq; omega
              intro e he
              rcases List.mem_cons.mp he with rfl | he2
              · exact ⟨nm, hx, hb⟩
              · exact (hiff.mp hm) e he2
            · intro hall
              have hm : m = rest.length :=
                hiff.mpr (fun e he => hall e (List.mem_cons_of_mem d he))
              simp only [List.length_cons]; omega
        · rw [if_neg hb] at hn
          constructor
          · simp only [List.length_cons]; omega
          · constructor
            · intro heq
              exfalso
              simp only [List.length_cons] at heq
              omega
            · intro hall
              obtain ⟨nm2, hx2, hb2⟩ := hall d (List.mem_cons_self d rest)
              rw [hx] at hx2
              exact absurd (Option.some.inj hx2 ▸ hb2) hb

/-- The dependent-reference loop fails only with `EINVAL`. -/
theorem reqbyMatchCount_error_einval (acc : List orphan_pkg)
    (deps : List String) :
    ∀ e, reqbyMatchCount acc deps = .error e → e = EINVAL := by
  induction deps with
  | nil => intro e h; exact absurd h (by simp [reqbyMatchCount])
  | cons d rest ih =>
    intro e h
    unfold reqbyMatchCount at h
    cases hx : xbps_get_pkg_name d with
    | none =>
      rw [hx] at h
      exact (Except.error.inj h).symm
    | some nm =>
      rw [hx] at h
      cases hr : reqbyMatchCount acc rest with
      | error e2 =>
        rw [hr] at h
        exact (Except.error.inj h).symm ▸ ih e2 hr
      | ok m => rw [hr] at h; exact absurd h (by simp)

/-- If some dependent reference cannot be parsed, the loop fails with
`EINVAL`. -/
theorem reqbyMatchCount_error_of_badname (acc : List orphan_pkg)
    (deps : List String) (d : String) (hd : d ∈ deps)
    (hbad : xbps_get_pkg_name d = none) :
    reqbyMatchCount acc deps = .error EINVAL := by
  induction deps with
  | nil => exact absurd hd (List.not_mem_nil d)
  | cons d0 rest ih =>
    unfold reqbyMatchCount
    rcases List.mem_cons.mp hd with rfl | hd2
    · rw [hbad]
    · cases hx : xbps_get_pkg_name d0 with
      | none => rfl
      | some nm => rw [ih hd2]

/-- A failing callback either propagates the nonzero state-resolution
return value or fails with `EINVAL`. -/
theorem find_orphan_pkg_error_cases (obj : PkgDict) (acc : List orphan_pkg)
    (e : Nat) (h : find_orphan_pkg obj acc = .error e) :
    (obj.stateRv ≠ 0 ∧ e = obj.stateRv) ∨ e = EINVAL := by
  unfold find_orphan_pkg at h
  split at h
  · exact absurd h (by simp)
  · split at h
    next hrv => exact Or.inl ⟨hrv, (Except.error.inj h).symm⟩
    · split at h
      · exact absurd h (by simp)
      · split at h
        · exact absurd h (by simp)
        · exact Or.inr (Except.error.inj h).symm
        next deps heq =>
          split at h
          · exact absurd h (by simp)
          · split at h
            next e2 hcnt =>
              exact Or.inr ((Except.error.inj h).symm ▸
                reqbyMatchCount_error_einval acc deps e2 hcnt)
            · split at h
              · exact absurd h (by simp)
              · exact absurd h (by simp)

/-- A candidate record whose `"requiredby"` value is not an array makes
the callback fail with `EINVAL`, whatever the current `orphan_list`. -/
theorem find_orphan_pkg_nonarray_error (obj : PkgDict)
    (hauto : obj.automaticInstall = true) (hrv : obj.stateRv = 0)
    (hst : obj.state = .XBPS_PKG_STATE_INSTALLED)
    (hreq : obj.requiredby = some .nonArray) :
    ∀ acc, find_orphan_pkg obj acc = .error EINVAL := by
  intro acc
  simp [find_orphan_pkg, hauto, hrv, hst, hreq]

/-- A candidate record with an unparseable dependent reference makes the
callback fail with `EINVAL`, whatever the current `orphan_list`. -/
theorem find_orphan_pkg_badname_error (obj : PkgDict) (deps : List String)
    (d : String) (hauto : obj.automaticInstall = true)
    (hrv : obj.stateRv = 0) (hst : obj.state = .XBPS_PKG_STATE_INSTALLED)
    (hreq : obj.requiredby = some (.array deps)) (hd : d ∈ deps)
    (hbad : xbps_get_pkg_name d = none) :
    ∀ acc, find_orphan_pkg obj acc = .error EINVAL := by
  intro acc
  have hlen : deps.length ≠ 0 := by
    have : deps ≠ [] := List.ne_nil_of_mem hd
    simpa using this
  simp [find_orphan_pkg, hauto, hrv, hst, hreq, hlen,
    reqbyMatchCount_error_of_badname acc deps d hd hbad]

/-- A record that fails state resolution makes the callback return that
nonzero value, whatever the current `orphan_list`: the record is not
skipped. -/
theorem find_orphan_pkg_state_error (obj : PkgDict)
    (hauto : obj.automaticInstall = true) (hrv : obj.stateRv ≠ 0) :
    ∀ acc, find_orphan_pkg obj acc = .error obj.stateRv := by
  intro acc
  simp [find_orphan_pkg, hauto, hrv]

/-- If some visited record makes the callback fail for every possible
accumulator, the whole scan fails. -/
theorem iterPkgs_error_of_mem (l : List PkgDict) (p : PkgDict)
    (hp : p ∈ l)
    (hfail : ∀ acc, ∃ e, find_orphan_pkg p acc = .error e) :
    ∀ acc0, ∃ e, iterPkgs acc0 l = .error e := by
  induction l with
  | nil => exact absurd hp (List.not_mem_nil p)
  | cons q rest ih =>
    intro acc0
    unfold iterPkgs
    cases hf : find_orphan_pkg q acc0 with
    | error e => exact ⟨e, rfl⟩
    | ok acc1 =>
      rcases List.mem_cons.mp hp with rfl | hp2
      · obtain ⟨e, he⟩ := hfail acc0
        rw [hf] at he
        exact absurd he (by simp)
      · exact ih hp2 acc1

/-- When every record's state resolution succeeds, the only error the scan
can produce is `EINVAL`. -/
theorem iterPkgs_error_einval (l : List PkgDict)
    (hok : ∀ q ∈ l, q.stateRv = 0) :
    ∀ acc e, iterPkgs acc l = .error e → e = EINVAL := by
  induction l with
  | nil => intro acc e h; exact absurd h (by simp [iterPkgs])
  | cons q rest ih =>
    intro acc e h
    unfold iterPkgs at h
    cases hf : find_orphan_pkg q acc with
    | error e2 =>
      rw [hf] at h
      rcases find_orphan_pkg_error_cases q acc e2 hf with ⟨hne, _⟩ | he2
      · exact absurd (hok q (List.mem_cons_self q rest)) hne
      · exact (Except.error.inj h).symm ▸ he2
    | ok acc1 =>
      rw [hf] at h
      exact ih (fun r hr => hok r (List.mem_cons_of_mem q hr)) acc1 e h

/-- When exactly one visited record misbehaves — failing with the same
error for every accumulator while every other record succeeds — the scan
fails with precisely that error. -/
theorem iterPkgs_error_exact (l : List PkgDict) (p : PkgDict) (e : Nat)
    (hp : p ∈ l) (hfail : ∀ acc, find_orphan_pkg p acc = .error e)
    (hok : ∀ q ∈ l, q ≠ p → ∀ acc, ∃ acc2, find_orphan_pkg q acc = .ok acc2) :
    ∀ acc0, iterPkgs acc0 l = .error e := by
  induction l with
  | nil => exact absurd hp (List.not_mem_nil p)
  | cons q rest ih =>
    intro acc0
    unfold iterPkgs
    by_cases hqp : q = p
    · subst hqp
      rw [hfail acc0]
    · obtain ⟨acc1, hf⟩ := hok q (List.mem_cons_self q rest) hqp acc0
      rw [hf]
      have hp2 : p ∈ rest := by
        rcases List.mem_cons.mp hp with rfl | hp2
        · exact absurd rfl hqp
        · exact hp2
      exact ih hp2 (fun r hr hrp => hok r (List.mem_cons_of_mem q hr) hrp) acc1

/-! ## Claims -/

/-- Claim C1, counterexample: `pkgNoReqby` is automatic and `INSTALLED`
with no `requiredby` field at all, yet `xbps_find_orphan_packages` returns
an empty Orphan Set — the record is not appended, because line 100 of
`find_orphan_pkg` returns 0 (skip) when the key is absent. -/
theorem C1_absent_reqby_counterexample :
    pkgNoReqby.automaticInstall = true ∧ pkgNoReqby.stateRv = 0 ∧
      pkgNoReqby.state = .XBPS_PKG_STATE_INSTALLED ∧
      pkgNoReqby.requiredby = none ∧
      (xbps_find_orphan_packages [] (some ⟨[pkgNoReqby]⟩)).result = some [] :=
  ⟨rfl, rfl, rfl, rfl, rfl⟩

/-- Claim C1, amended: a record with `automatic == true`,
`state == INSTALLED` and an absent `required_by` field is skipped — the
callback returns the Orphan Set unchanged, and no record of the final
Orphan Set has an absent `required_by` (only a present, array-typed
`required_by` can lead to an append). -/
theorem C1_absent_reqby_skipped (obj : PkgDict) (acc : List orphan_pkg)
    (reg : Registry) (l : List PkgDict)
    (hauto : obj.automaticInstall = true) (hrv : obj.stateRv = 0)
    (hst : obj.state = .XBPS_PKG_STATE_INSTALLED)
    (hreq : obj.requiredby = none)
    (hres : (xbps_find_orphan_packages [] (some reg)).result = some l) :
    find_orphan_pkg obj acc = .ok acc ∧ ∀ d ∈ l, d.requiredby ≠ none := by
  constructor
  · simp [find_orphan_pkg, hauto, hrv, hst, hreq]
  · simp only [xbps_find_orphan_packages] at hres
    cases hscan : iterPkgs [] reg.packages.reverse with
    | error e => rw [hscan] at hres; exact absurd hres (by simp)
    | ok fl =>
      rw [hscan] at hres
      obtain ⟨tl, htl, hsub, hprop⟩ := iterPkgs_ok_cases _ _ _ hscan
      have hl : l = fl.map (fun o => o.dict) := by
        simpa using hres.symm
      subst hl
      intro d hd
      obtain ⟨o, ho, rfl⟩ := List.mem_map.mp hd
      have hotl : o ∈ tl := by
        rw [htl] at ho
        simpa using ho
      obtain ⟨-, -, -, deps, hdeps⟩ := hprop o hotl
      simp [hdeps]

/-- Claim C1, witness for the amended theorem at `pkgNoReqby` and a
one-record registry. -/
theorem C1_absent_reqby_skipped_witness :
    find_orphan_pkg pkgNoReqby [] = .ok [] ∧
      ∀ d ∈ [pkgB, pkgA], d.requiredby ≠ none :=
  C1_absent_reqby_skipped pkgNoReqby [] regAB [pkgB, pkgA]
    rfl rfl rfl rfl rfl

/-- Claim C3: on the registry `[A, B]` of the spec's transitive scenario
the call returns the Orphan Set `[B, A]` in discovery order — the reverse
walk classifies `B` first (present, empty `required_by`), then `A`
because its only dependent `B` is already an orphan. -/
theorem C3_transitive_scenario :
    xbps_find_orphan_packages [] (some regAB) =
      ⟨some [pkgB, pkgA], [], true, none⟩ := by
  rfl

/-- Claim C4: every record placed in the Orphan Set has
`automatic == true` and passed state resolution with `INSTALLED`; in
particular non-automatic records and records in any other state are never
included. -/
theorem C4_orphans_automatic_installed (reg : Registry) (l : List PkgDict)
    (hres : (xbps_find_orphan_packages [] (some reg)).result = some l) :
    ∀ d ∈ l, d.automaticInstall = true ∧ d.stateRv = 0 ∧
      d.state = .XBPS_PKG_STATE_INSTALLED := by
  simp only [xbps_find_orphan_packages] at hres
  cases hscan : iterPkgs [] reg.packages.reverse with
  | error e => rw [hscan] at hres; exact absurd hres (by simp)
  | ok fl =>
    rw [hscan] at hres
    obtain ⟨tl, htl, hsub, hprop⟩ := iterPkgs_ok_cases _ _ _ hscan
    have hl : l = fl.map (fun o => o.dict) := by
      simpa using hres.symm
    subst hl
    intro d hd
    obtain ⟨o, ho, rfl⟩ := List.mem_map.mp hd
    have hotl : o ∈ tl := by
      rw [htl] at ho
      simpa using ho
    obtain ⟨hA, hR, hS, -⟩ := hprop o hotl
    exact ⟨hA, hR, hS⟩

/-- Claim C4, witness at the transitive scenario's registry and `pkgB`. -/
theorem C4_orphans_automatic_installed_witness :
    pkgB.automaticInstall = true ∧ pkgB.stateRv = 0 ∧
      pkgB.state = .XBPS_PKG_STATE_INSTALLED :=
  C4_orphans_automatic_installed regAB [pkgB, pkgA] rfl pkgB (by simp)

/-- Claim C8: the Orphan Set is a sublist of the reverse-order walk of the
snapshot — each record is visited once and appended at most once — so a
registry without duplicate records yields an Orphan Set without
duplicates. -/
theorem C8_visited_once_appended_once (reg : Registry) (l : List PkgDict)
    (hres : (xbps_find_orphan_packages [] (some reg)).result = some l) :
    List.Sublist l reg.packages.reverse ∧
      (reg.packages.Nodup → l.Nodup) := by
  simp only [xbps_find_orphan_packages] at hres
  cases hscan : iterPkgs [] reg.packages.reverse with
  | error e => rw [hscan] at hres; exact absurd hres (by simp)
  | ok fl =>
    rw [hscan] at hres
    obtain ⟨tl, htl, hsub, hprop⟩ := iterPkgs_ok_cases _ _ _ hscan
    have hl : l = fl.map (fun o => o.dict) := by
      simpa using hres.symm
    have htl2 : fl = tl := by simpa using htl
    subst hl
    subst htl2
    refine ⟨hsub, fun hnd => hsub.nodup ?_⟩
    exact (List.nodup_reverse).mpr hnd

/-- Claim C8, witness at the transitive scenario's registry. -/
theorem C8_visited_once_appended_once_witness :
    List.Sublist [pkgB, pkgA] regAB.packages.reverse ∧
      [pkgB, pkgA].Nodup :=
  ⟨(C8_visited_once_appended_once regAB [pkgB, pkgA] rfl).1,
    (C8_visited_once_appended_once regAB [pkgB, pkgA] rfl).2 (by decide)⟩

/-- Claim C9: the static accumulator is drained on every path with a
snapshot, so a second invocation starts from an empty Orphan Set and —
the call being a pure function of the snapshot — returns an identical
result. -/
theorem C9_idempotent (orphan_list0 : List orphan_pkg) (reg : Registry) :
    (xbps_find_orphan_packages orphan_list0 (some reg)).orphan_list = [] ∧
      xbps_find_orphan_packages
          ((xbps_find_orphan_packages [] (some reg)).orphan_list)
          (some reg) =
        xbps_find_orphan_packages [] (some reg) := by
  have hdrain : ∀ ol0 : List orphan_pkg,
      (xbps_find_orphan_packages ol0 (some reg)).orphan_list = [] := by
    intro ol0
    cases hscan : iterPkgs ol0 reg.packages.reverse <;>
      simp [xbps_find_orphan_packages, hscan]
  exact ⟨hdrain orphan_list0, by rw [hdrain]⟩

/-- Claim C2: for an automatic, `INSTALLED` record whose `required_by` is
a present array, the record is appended exactly when the number of
dependent references whose bare name matches a current Orphan Set entry
(`ndep`) equals the total number of references; in particular a record
with a dependent whose name matches no current orphan is left out. -/
theorem C2_append_iff_all_deps_orphaned (obj : PkgDict)
    (acc : List orphan_pkg) (deps : List String) (n : Nat)
    (hauto : obj.automaticInstall = true) (hrv : obj.stateRv = 0)
    (hst : obj.state = .XBPS_PKG_STATE_INSTALLED)
    (hreq : obj.requiredby = some (.array deps))
    (hn : reqbyMatchCount acc deps = .ok n) :
    (find_orphan_pkg obj acc = .ok (acc ++ [⟨obj, obj.pkgname⟩]) ↔
        n = deps.length) ∧
      (n ≠ deps.length → find_orphan_pkg obj acc = .ok acc) ∧
      ((∃ d ∈ deps, ∀ nm, xbps_get_pkg_name d = some nm →
          acc.any (fun o => o.pkgname == nm) = false) →
        find_orphan_pkg obj acc = .ok acc) := by
  by_cases hlen : deps.length = 0
  · have hdeps : deps = [] := List.length_eq_zero.mp hlen
    subst hdeps
    have hn0 : n = 0 := by
      have hh : Except.ok (ε := Nat) 0 = .ok n := by
        simpa [reqbyMatchCount] using hn
      exact (Except.ok.inj hh).symm
    have hfind : find_orphan_pkg obj acc = .ok (acc ++ [⟨obj, obj.pkgname⟩]) := by
      simp [find_orphan_pkg, hauto, hrv, hst, hreq]
    refine ⟨by simp [hfind, hn0], fun hne => absurd (by simp [hn0]) hne, ?_⟩
    rintro ⟨d, hd, -⟩
    exact absurd hd (List.not_mem_nil d)
  · have hfind : find_orphan_pkg obj acc =
        if n = deps.length then .ok (acc ++ [⟨obj, obj.pkgname⟩])
        else .ok acc := by
      by_cases heq : n = deps.length
      · rw [if_pos heq]
        simp [find_orphan_pkg, hauto, hrv, hst, hreq, hn, hlen, heq]
      · rw [if_neg heq]
        simp [find_orphan_pkg, hauto, hrv, hst, hreq, hn, hlen, heq]
    by_cases heq : n = deps.length
    · rw [if_pos heq] at hfind
      refine ⟨by simp [hfind, heq], fun hne => absurd heq hne, ?_⟩
      rintro ⟨d, hd, hbadall⟩
      exfalso
      obtain ⟨-, hiff⟩ := reqbyMatchCount_ok_iff acc deps n hn
      obtain ⟨nm, hnm, hany⟩ := (hiff.mp heq) d hd
      rw [hbadall nm hnm] at hany
      exact Bool.false_ne_true hany
    · rw [if_neg heq] at hfind
      refine ⟨?_, fun _ => hfind, fun _ => hfind⟩
      constructor
      · intro hok
        exfalso
        rw [hfind] at hok
        have hacc : acc = acc ++ [⟨obj, obj.pkgname⟩] := Except.ok.inj hok
        simpa using congrArg List.length hacc
      · intro h2
        exact absurd h2 heq

/-- Claim C2, witness: `pkgA` against an Orphan Set already holding `B`
(its only dependent), so `ndep = 1 = cnt` and the record is appended. -/
theorem C2_append_iff_all_deps_orphaned_witness :
    reqbyMatchCount [⟨pkgB, "B"⟩] ["B-2.0"] = .ok 1 ∧
      (find_orphan_pkg pkgA [⟨pkgB, "B"⟩] =
          .ok ([⟨pkgB, "B"⟩] ++ [⟨pkgA, pkgA.pkgname⟩]) ↔
        1 = (["B-2.0"] : List String).length) :=
  ⟨rfl,
    (C2_append_iff_all_deps_orphaned pkgA [⟨pkgB, "B"⟩] ["B-2.0"] 1
      rfl rfl rfl rfl rfl).1⟩

/-- Claim C5: an automatic, `INSTALLED` record whose `required_by` is
present but not array-typed makes the whole call fail with `EINVAL` and
return no partial result (all records are assumed to resolve their state,
the only other error source of the scan). -/
theorem C5_nonarray_reqby_fails (reg : Registry) (p : PkgDict)
    (hp : p ∈ reg.packages) (hauto : p.automaticInstall = true)
    (hrv : p.stateRv = 0) (hst : p.state = .XBPS_PKG_STATE_INSTALLED)
    (hreq : p.requiredby = some .nonArray)
    (hstates : ∀ q ∈ reg.packages, q.stateRv = 0) :
    (xbps_find_orphan_packages [] (some reg)).result = none ∧
      (xbps_find_orphan_packages [] (some reg)).err = some EINVAL := by
  obtain ⟨e, hscan⟩ := iterPkgs_error_of_mem reg.packages.reverse p
    (List.mem_reverse.mpr hp)
    (fun acc => ⟨EINVAL, find_orphan_pkg_nonarray_error p hauto hrv hst hreq acc⟩)
    []
  have he : e = EINVAL := iterPkgs_error_einval reg.packages.reverse
    (fun q hq => hstates q (List.mem_reverse.mp hq)) [] e hscan
  subst he
  constructor <;> simp [xbps_find_orphan_packages, hscan]

/-- Claim C5, witness at a one-record registry holding
`pkgNonArrayReqby`. -/
theorem C5_nonarray_reqby_fails_witness :
    (xbps_find_orphan_packages [] (some ⟨[pkgNonArrayReqby]⟩)).result = none ∧
      (xbps_find_orphan_packages [] (some ⟨[pkgNonArrayReqby]⟩)).err =
        some EINVAL :=
  C5_nonarray_reqby_fails ⟨[pkgNonArrayReqby]⟩ pkgNonArrayReqby
    (List.mem_singleton.mpr rfl) rfl rfl rfl rfl
    (fun q hq => by rw [List.mem_singleton.mp hq]; rfl)

/-- Claim C6: an automatic, `INSTALLED` record with a dependent reference
whose bare name cannot be extracted makes the whole call fail with
`EINVAL` and return no partial result (all records are assumed to resolve
their state, the only other error source of the scan). -/
theorem C6_badname_fails (reg : Registry) (p : PkgDict) (deps : List String)
    (d : String) (hp : p ∈ reg.packages) (hauto : p.automaticInstall = true)
    (hrv : p.stateRv = 0) (hst : p.state = .XBPS_PKG_STATE_INSTALLED)
    (hreq : p.requiredby = some (.array deps)) (hd : d ∈ deps)
    (hbad : xbps_get_pkg_name d = none)
    (hstates : ∀ q ∈ reg.packages, q.stateRv = 0) :
    (xbps_find_orphan_packages [] (some reg)).result = none ∧
      (xbps_find_orphan_packages [] (some reg)).err = some EINVAL := by
  obtain ⟨e, hscan⟩ := iterPkgs_error_of_mem reg.packages.reverse p
    (List.mem_reverse.mpr hp)
    (fun acc => ⟨EINVAL,
      find_orphan_pkg_badname_error p deps d hauto hrv hst hreq hd hbad acc⟩)
    []
  have he : e = EINVAL := iterPkgs_error_einval reg.packages.reverse
    (fun q hq => hstates q (List.mem_reverse.mp hq)) [] e hscan
  subst he
  constructor <;> simp [xbps_find_orphan_packages, hscan]

/-- Claim C6, witness at a one-record registry holding `pkgBadDepRef`,
whose dependent reference `"nodash"` has no version suffix. -/
theorem C6_badname_fails_witness :
    (xbps_find_orphan_packages [] (some ⟨[pkgBadDepRef]⟩)).result = none ∧
      (xbps_find_orphan_packages [] (some ⟨[pkgBadDepRef]⟩)).err =
        some EINVAL :=
  C6_badname_fails ⟨[pkgBadDepRef]⟩ pkgBadDepRef ["nodash"] "nodash"
    (List.mem_singleton.mpr rfl) rfl rfl rfl rfl
    (List.mem_singleton.mpr rfl) rfl
    (fun q hq => by rw [List.mem_singleton.mp hq]; rfl)

/-- Claim C7: whenever the scan fails, the call returns no result, the
static `orphan_list` is fully drained, the Registry Snapshot is released,
and the error is surfaced through `errno`. -/
theorem C7_failure_cleanup (orphan_list0 : List orphan_pkg) (reg : Registry)
    (e : Nat)
    (hscan : iterPkgs orphan_list0 reg.packages.reverse = .error e) :
    xbps_find_orphan_packages orphan_list0 (some reg) =
      ⟨none, [], true, some e⟩ := by
  simp [xbps_find_orphan_packages, hscan]

/-- Claim C7, witness at a one-record registry whose scan fails with
`EINVAL`. -/
theorem C7_failure_cleanup_witness :
    iterPkgs [] (Registry.mk [pkgNonArrayReqby]).packages.reverse =
        .error EINVAL ∧
      xbps_find_orphan_packages [] (some ⟨[pkgNonArrayReqby]⟩) =
        ⟨none, [], true, some EINVAL⟩ :=
  ⟨rfl, C7_failure_cleanup [] ⟨[pkgNonArrayReqby]⟩ EINVAL rfl⟩

/-- Claim C10: when state resolution fails for an automatic record with a
nonzero return value, the callback propagates that value instead of
skipping the record, and — when every other record processes cleanly — the
whole call fails with that error and returns no result. -/
theorem C10_state_error_propagates (reg : Registry) (p : PkgDict) (e : Nat)
    (hp : p ∈ reg.packages) (hauto : p.automaticInstall = true)
    (hrv : p.stateRv = e) (hne : e ≠ 0)
    (hok : ∀ q ∈ reg.packages, q ≠ p →
      ∀ acc, ∃ acc2, find_orphan_pkg q acc = .ok acc2) :
    (∀ acc, find_orphan_pkg p acc = .error e) ∧
      (xbps_find_orphan_packages [] (some reg)).result = none ∧
      (xbps_find_orphan_packages [] (some reg)).err = some e := by
  have hfail : ∀ acc, find_orphan_pkg p acc = .error e := by
    intro acc
    have hh := find_orphan_pkg_state_error p hauto (by rw [hrv]; exact hne) acc
    rw [hrv] at hh
    exact hh
  have hscan : iterPkgs [] reg.packages.reverse = .error e :=
    iterPkgs_error_exact reg.packages.reverse p e (List.mem_reverse.mpr hp)
      hfail (fun q hq hqp => hok q (List.mem_reverse.mp hq) hqp) []
  exact ⟨hfail, by simp [xbps_find_orphan_packages, hscan],
    by simp [xbps_find_orphan_packages, hscan]⟩

/-- Claim C10, witness at a one-record registry holding `pkgStateFail`,
whose state resolution returns 5. -/
theorem C10_state_error_propagates_witness :
    find_orphan_pkg pkgStateFail [] = .error 5 ∧
      (xbps_find_orphan_packages [] (some ⟨[pkgStateFail]⟩)).result = none ∧
      (xbps_find_orphan_packages [] (some ⟨[pkgStateFail]⟩)).err = some 5 := by
  have hh := C10_state_error_propagates ⟨[pkgStateFail]⟩ pkgStateFail 5
    (List.mem_singleton.mpr rfl) rfl rfl (by decide)
    (fun q hq hqp => absurd (List.mem_singleton.mp hq) hqp)
  exact ⟨hh.1 [], hh.2.1, hh.2.2⟩

end XbpsOrphans
